import Mathlib

/-!
Verification of the meal-window feature and target engine of the
Glucose-Curve repository (directory `AI Models/glucose_ml/`).

The numeric code operates on IEEE floats and uses NaN as the "unknown /
missing" sentinel (`float("nan")`, `np.isfinite`, `np.nan*` reductions).
Following the repository spec's own design note, the embedding re-expresses
this as an explicit optional rational type: `F := Option ℚ`, with `none`
standing for a non-finite float (NaN; infinities cannot be produced by the
code paths modelled here and are conflated with NaN) and `some q` for a
finite value.  All float arithmetic on in-range data is exact in the
grid/window logic modelled here, so `ℚ` is a faithful carrier.

Every definition is translated from the Python source (file and function
named in its doc comment).  Library calls (`np.arange`, `np.interp`,
`np.polyfit`, `np.trapz`, `np.nanmedian`, ...) are modelled from their
documented numpy semantics at the argument shapes used by the source.
-/

/-- A float value: `none` is NaN / non-finite, `some q` a finite rational. -/
abbrev F : Type := Option ℚ

/-- Number of finite entries of a float array: models `np.isfinite(xs).sum()`. -/
def countFinite (xs : List F) : ℕ :=
  (xs.filterMap id).length

/-- Median of an already sorted list of rationals; numpy convention:
the middle element for odd length, the mean of the two middle elements for
even length, NaN for an empty array. -/
def medianSorted (v : List ℚ) : F :=
  if v.length = 0 then none
  else if v.length % 2 = 1 then some (v.getD (v.length / 2) 0)
  else some ((v.getD (v.length / 2 - 1) 0 + v.getD (v.length / 2) 0) / 2)

/-- Models `np.nanmedian`: the median of the finite entries, NaN when there
are none. -/
def nanmedian (xs : List F) : F :=
  medianSorted (List.insertionSort (· ≤ ·) (xs.filterMap id))

/-- Models `np.nanmean`: mean of the finite entries, NaN when there are none. -/
def nanmean (xs : List F) : F :=
  let v := xs.filterMap id
  if v.length = 0 then none else some (v.sum / (v.length : ℚ))

/-- Models `np.nanstd(xs) ^ 2`, the population variance of the finite
entries (ddof = 0), NaN when there are none.  The source returns the square
root of this quantity; a square root is irrational in general, so the
embedding carries the squared value.  No claim refers to this field. -/
def nanvar (xs : List F) : F :=
  let v := xs.filterMap id
  if v.length = 0 then none
  else
    let mu := v.sum / (v.length : ℚ)
    some ((v.map (fun x => (x - mu) ^ 2)).sum / (v.length : ℚ))

/-- Models `np.nanmax`: maximum of the finite entries, NaN when there are
none. -/
def nanmax (xs : List F) : F :=
  match xs.filterMap id with
  | [] => none
  | v :: vs => some (vs.foldl max v)

/-- The index pairs where both arrays are finite: models the mask
`np.isfinite(x) & np.isfinite(y)` followed by fancy indexing of both
arrays. -/
def finitePairs (x y : List F) : List (ℚ × ℚ) :=
  (x.zip y).filterMap (fun p =>
    match p with
    | (some a, some b) => some (a, b)
    | _ => none)

/-- Slope of the degree-1 fit `np.polyfit(x0, y0, 1)[0]`, written through the
normal equations of the least-squares problem; exact over `ℚ`.  When all
x-values coincide the design matrix is rank deficient and numpy's output is
an unspecified finite minimum-norm value; the `ℚ` division then yields the
junk value 0 (division by zero), and no theorem relies on that case. -/
def polyfitSlope (ps : List (ℚ × ℚ)) : ℚ :=
  let n : ℚ := (ps.length : ℚ)
  let sx := (ps.map Prod.fst).sum
  let sy := (ps.map Prod.snd).sum
  let sxy := (ps.map (fun p => p.1 * p.2)).sum
  let sxx := (ps.map (fun p => p.1 * p.1)).sum
  (n * sxy - sx * sy) / (n * sxx - sx * sx)

/-- Source `time_utils.py`, `linear_slope`: least-squares slope over the
finite pairs, NaN when fewer than 3 finite pairs exist. -/
def linear_slope (x y : List F) : F :=
  let ps := finitePairs x y
  if ps.length < 3 then none else some (polyfitSlope ps)

/-- Sum of trapezoids of unit spacing: models `np.trapz(y0, dx=1)`. -/
def trapzSum : List ℚ → ℚ
  | a :: b :: rest => (a + b) / 2 + trapzSum (b :: rest)
  | _ => 0

/-- Source `targets.py`, `_trapz_auc`: 0 when fewer than 2 points or no
finite point; otherwise non-finite entries are clamped to 0 and the
trapezoidal rule with spacing `dt` is applied. -/
def trapz_auc (y : List F) (dt : ℚ) : ℚ :=
  if y.length < 2 then 0
  else if y.all Option.isNone then 0
  else trapzSum (y.map (fun o => o.getD 0)) * dt

/-- Linear interpolation on a list of knots sorted by first component:
models `np.interp(g, t, y)` for increasing `t` (values are clipped to the
first knot on the left; the resampler masks both out-of-range sides to NaN
afterwards, so the clipping never reaches its output). -/
def interpQ : List (ℚ × ℚ) → ℚ → ℚ
  | [], _ => 0
  | [p], _ => p.2
  | p :: q :: rest, g =>
      if g < p.1 then p.2
      else if g ≤ q.1 then p.2 + (q.2 - p.2) * (g - p.1) / (q.1 - p.1)
      else interpQ (q :: rest) g

/-- Stable sort of sample pairs by time: models `np.argsort` indexing on the
time array (quicksort order is observable only for duplicate times). -/
def sortPairs (ps : List (ℚ × ℚ)) : List (ℚ × ℚ) :=
  List.insertionSort (fun a b => a.1 ≤ b.1) ps

/-- Length of `np.arange(start, stop, step)`: `ceil((stop - start) / step)`
for a positive step and `start < stop`, else 0. -/
def arangeLen (start stop step : ℚ) : ℕ :=
  if 0 < step ∧ start < stop then (⌈(stop - start) / step⌉).toNat else 0

/-- Models `np.arange(start, stop, step)` (exact arithmetic; the float
round-off of `start + i * step` is zero at the integral arguments the
resampler passes). -/
def np_arange (start stop step : ℚ) : List ℚ :=
  (List.range (arangeLen start stop step)).map (fun i : ℕ => start + (i : ℚ) * step)

/-- Source `time_utils.py`, `resample_to_grid`: drop non-finite samples,
build the grid `np.arange(start, end + 0.0001, step)`, return all-NaN
values when fewer than 2 finite samples remain, else linearly interpolate
the time-sorted samples and force grid points strictly outside the sampled
time range to NaN. -/
def resample_to_grid (minutes values : List F)
    (grid_minutes start_minute end_minute : ℤ) : List ℚ × List F :=
  let pairs := finitePairs minutes values
  let grid_t := np_arange (start_minute : ℚ) ((end_minute : ℚ) + 1 / 10000) (grid_minutes : ℚ)
  if pairs.length < 2 then
    (grid_t, grid_t.map (fun _ => none))
  else
    let s := sortPairs pairs
    let tfirst := (s.headD (0, 0)).1
    let tlast := (s.getLastD (0, 0)).1
    (grid_t, grid_t.map (fun g =>
      if g < tfirst ∨ tlast < g then none else some (interpQ s g)))

/-- Source `config.py`, `MealWindowConfig`: window lengths in minutes and
the data-quality thresholds. -/
structure MealWindowConfig where
  pre_baseline_minutes : ℤ
  pre_context_minutes : ℤ
  post_minutes : ℤ
  slope_minutes : ℤ
  grid_minutes : ℤ
  activity_pre_minutes : ℤ
  activity_post_minutes : ℤ
  min_points_pre_baseline : ℕ
  min_points_post : ℕ
deriving DecidableEq

/-- The dataclass defaults of `MealWindowConfig`. -/
def defaultConfig : MealWindowConfig :=
  ⟨30, 120, 180, 60, 5, 360, 180, 3, 10⟩

/-- The glucose values whose relative minute lies in the baseline window
`[-pre_baseline_minutes, 0)`: the common sub-expression
`glucose_mgdl[(minutes_rel >= -pre) & (minutes_rel < 0)]` of `targets.py`
and `features.py` (a NaN minute fails both comparisons and is dropped). -/
def preWindowVals (minutes_rel glucose_mgdl : List F) (cfg : MealWindowConfig) : List F :=
  (minutes_rel.zip glucose_mgdl).filterMap (fun p =>
    match p.1 with
    | some t => if -(cfg.pre_baseline_minutes : ℚ) ≤ t ∧ t < 0 then some p.2 else none
    | none => none)

/-- The baseline as computed from the pre-meal window (`targets.py` lines
34-37): `np.nanmedian` of the windowed values when at least
`min_points_pre_baseline` of them are finite, NaN otherwise. -/
def targetsBaseline (minutes_rel glucose_mgdl : List F) (cfg : MealWindowConfig) : F :=
  if cfg.min_points_pre_baseline ≤ countFinite (preWindowVals minutes_rel glucose_mgdl cfg)
  then nanmedian (preWindowVals minutes_rel glucose_mgdl cfg) else none

/-- The record returned by `compute_targets`. -/
structure Targets where
  baseline_mgdl : F
  peak_mgdl : F
  peak_inc_mgdl : F
  incremental_auc_mgdl_min : F
  slope_0_60_mgdl_per_min : F
deriving DecidableEq

/-- Source `targets.py`, `compute_targets`: baseline from the pre-meal
window, resampling of the post-meal window onto the grid, the
`min_points_post` quality gate, then peak / incremental peak / incremental
AUC / slope over `[0, min(slope_minutes, post_minutes)]`.  Total by
construction: every insufficient-data branch yields `none`, never an
exception. -/
def compute_targets (minutes_rel glucose_mgdl : List F) (cfg : MealWindowConfig) : Targets :=
  let pre_vals :=
    (minutes_rel.zip glucose_mgdl).filterMap (fun p =>
      match p.1 with
      | some t => if -(cfg.pre_baseline_minutes : ℚ) ≤ t ∧ t < 0 then some p.2 else none
      | none => none)
  let baseline : F :=
    if cfg.min_points_pre_baseline ≤ countFinite pre_vals then nanmedian pre_vals else none
  let rg := resample_to_grid minutes_rel glucose_mgdl cfg.grid_minutes 0 cfg.post_minutes
  let grid_t := rg.1
  let grid_g := rg.2
  if countFinite grid_g < cfg.min_points_post then
    ⟨baseline, none, none, none, none⟩
  else
    let peak := nanmax grid_g
    let peak_inc : F :=
      match baseline with
      | none => none
      | some b => match peak with
        | none => none
        | some p => some (p - b)
    let iauc : F :=
      match baseline with
      | none => none
      | some b =>
          some (trapz_auc (grid_g.map (fun g => g.map (fun v => max 0 (v - b)))) (cfg.grid_minutes : ℚ))
    let slope_end : ℚ := min (cfg.slope_minutes : ℚ) (cfg.post_minutes : ℚ)
    let sel := (grid_t.zip grid_g).filter (fun p => decide (0 ≤ p.1 ∧ p.1 ≤ slope_end))
    let slope := linear_slope (sel.map (fun p => some p.1)) (sel.map (fun p => p.2))
    ⟨baseline, peak, peak_inc, iauc, slope⟩

/-- The record returned by `compute_glucose_context_features`.  The
`pre_std_mgdl` field carries the population variance; the source returns
its square root (see `nanvar`). -/
structure ContextFeatures where
  baseline_mgdl : F
  pre_slope_mgdl_per_min : F
  pre_mean_mgdl : F
  pre_std_mgdl : F
deriving DecidableEq

/-- Source `features.py`, `compute_glucose_context_features`: baseline and
slope over `[-pre_baseline_minutes, 0)`, mean and spread over
`[-pre_context_minutes, 0)` gated at 3 finite points. -/
def compute_glucose_context_features (minutes_rel glucose_mgdl : List F)
    (cfg : MealWindowConfig) : ContextFeatures :=
  let m0 :=
    (minutes_rel.zip glucose_mgdl).filterMap (fun p =>
      match p.1 with
      | some t => if -(cfg.pre_baseline_minutes : ℚ) ≤ t ∧ t < 0 then some (t, p.2) else none
      | none => none)
  let baseline : F :=
    if cfg.min_points_pre_baseline ≤ countFinite (m0.map Prod.snd)
    then nanmedian (m0.map Prod.snd) else none
  let pre_slope := linear_slope (m0.map (fun p => some p.1)) (m0.map Prod.snd)
  let ctx :=
    (minutes_rel.zip glucose_mgdl).filterMap (fun p =>
      match p.1 with
      | some t => if -(cfg.pre_context_minutes : ℚ) ≤ t ∧ t < 0 then some p.2 else none
      | none => none)
  let ctx_mean : F := if 3 ≤ countFinite ctx then nanmean ctx else none
  let ctx_std : F := if 3 ≤ countFinite ctx then nanvar ctx else none
  ⟨baseline, pre_slope, ctx_mean, ctx_std⟩

/-- A meal line item joined to its food item (`MealEventItem` x `FoodItem`):
the dict built in `orm_extract.py`.  `none` models an absent or `None`
entry, which Python's `x or 0.0` coalesces to 0.0 exactly like a 0.0 value
(NaN cannot reach this code: the ORM fields are non-null decimals). -/
structure MealItem where
  grams : Option ℚ
  serving_grams : Option ℚ
  calories_kcal : Option ℚ
  carbs_g : Option ℚ
  fiber_g : Option ℚ
  protein_g : Option ℚ
  fat_g : Option ℚ
deriving DecidableEq

/-- The six macro totals returned by `compute_meal_macros`. -/
structure MealMacros where
  meal_grams : ℚ
  meal_calories_kcal : ℚ
  meal_carbs_g : ℚ
  meal_fiber_g : ℚ
  meal_protein_g : ℚ
  meal_fat_g : ℚ
deriving DecidableEq

/-- The zero-initialised totals dict of `compute_meal_macros`. -/
def zeroMacros : MealMacros :=
  ⟨0, 0, 0, 0, 0, 0⟩

/-- One iteration of the `compute_meal_macros` loop: skip the item unless
both grams and serving grams are (present and) strictly positive, else
scale the per-serving macros by `grams / serving_grams` and accumulate. -/
def itemStep (acc : MealMacros) (it : MealItem) : MealMacros :=
  let grams := it.grams.getD 0
  let serving_grams := it.serving_grams.getD 0
  if grams ≤ 0 ∨ serving_grams ≤ 0 then acc
  else
    let mult := grams / serving_grams
    ⟨acc.meal_grams + grams,
     acc.meal_calories_kcal + it.calories_kcal.getD 0 * mult,
     acc.meal_carbs_g + it.carbs_g.getD 0 * mult,
     acc.meal_fiber_g + it.fiber_g.getD 0 * mult,
     acc.meal_protein_g + it.protein_g.getD 0 * mult,
     acc.meal_fat_g + it.fat_g.getD 0 * mult⟩

/-- Source `features.py`, `compute_meal_macros`: fold of `itemStep` over
the item list starting from the zero totals.  Total by construction. -/
def compute_meal_macros (items : List MealItem) : MealMacros :=
  items.foldl itemStep zeroMacros

/-- A workout row as consumed by `compute_activity_features` (the columns
it never reads - `end_at`, `avg_hr_bpm`, `activity_type` - are omitted).
`start_at` is an absolute time in minutes; a datetime is always present. -/
structure Workout where
  start_at : ℚ
  duration_min : F
  active_energy_kcal : F
deriving DecidableEq

/-- An exercise-set row as consumed by `compute_activity_features`. -/
structure ExerciseSet where
  performed_at : ℚ
  reps : F
  weight_kg : F
deriving DecidableEq

/-- The record returned by `compute_activity_features`.  Counts are `ℕ`
(the source casts `len(df)` to float). -/
structure ActivityFeatures where
  workout_count_pre6h : ℕ
  workout_minutes_pre6h : ℚ
  workout_energy_kcal_pre6h : ℚ
  workout_count_post3h : ℕ
  workout_minutes_post3h : ℚ
  workout_energy_kcal_post3h : ℚ
  exercise_set_count_pre6h : ℕ
  exercise_set_volume_pre6h : ℚ
  exercise_set_count_post3h : ℕ
  exercise_set_volume_post3h : ℚ
deriving DecidableEq

/-- Source `features.py`, `_mask_between`: `(s >= start) & (s < end)`. -/
def mask_between (s lo hi : ℚ) : Bool :=
  decide (lo ≤ s ∧ s < hi)

/-- Source `features.py`, `compute_activity_features`: filter workouts by
start time and exercise sets by performed time into the half-open
pre-window `[meal - activity_pre_minutes, meal)` and post-window
`[meal, meal + activity_post_minutes)`, then emit counts, `fillna(0)` sums
and the reps x weight volume proxy. -/
def compute_activity_features (meal_time : ℚ) (workouts : List Workout)
    (exercise_sets : List ExerciseSet) (cfg : MealWindowConfig) : ActivityFeatures :=
  let pre_start := meal_time - (cfg.activity_pre_minutes : ℚ)
  let post_end := meal_time + (cfg.activity_post_minutes : ℚ)
  let w_pre := workouts.filter (fun w => mask_between w.start_at pre_start meal_time)
  let w_post := workouts.filter (fun w => mask_between w.start_at meal_time post_end)
  let s_pre := exercise_sets.filter (fun e => mask_between e.performed_at pre_start meal_time)
  let s_post := exercise_sets.filter (fun e => mask_between e.performed_at meal_time post_end)
  ⟨w_pre.length,
   (w_pre.map (fun w => w.duration_min.getD 0)).sum,
   (w_pre.map (fun w => w.active_energy_kcal.getD 0)).sum,
   w_post.length,
   (w_post.map (fun w => w.duration_min.getD 0)).sum,
   (w_post.map (fun w => w.active_energy_kcal.getD 0)).sum,
   s_pre.length,
   (s_pre.map (fun e => e.reps.getD 0 * e.weight_kg.getD 0)).sum,
   s_post.length,
   (s_post.map (fun e => e.reps.getD 0 * e.weight_kg.getD 0)).sum⟩

/-- Source `features.py`, `compute_time_features`, for a UTC-naive
timestamp measured in minutes since the Unix epoch (a Thursday, weekday 3
with Monday = 0): hour of day, day of week and weekend flag, as floats. -/
def compute_time_features (meal_time : ℚ) : ℚ × ℚ × ℚ :=
  let hour : ℤ := ⌊meal_time / 60⌋ % 24
  let dow : ℤ := (⌊meal_time / 1440⌋ + 3) % 7
  ((hour : ℚ), (dow : ℚ), if 5 ≤ dow then 1 else 0)

/-- A glucose reading row (`egv` frame): absolute time in minutes and a
value that the float conversion may in principle leave non-finite. -/
structure EGV where
  measured_at : ℚ
  glucose_mgdl : F
deriving DecidableEq

/-- A meal row of the `meals` frame: id, anchor time in minutes, and the
macro totals attached by the extractor (the `meal_*` columns). -/
structure Meal where
  meal_event_id : ℤ
  eaten_at : ℚ
  macros : MealMacros
deriving DecidableEq

/-- One output row of `build_meal_dataset`. -/
structure Row where
  meal_event_id : ℤ
  eaten_at : ℚ
  meal_hour : ℚ
  meal_dow : ℚ
  meal_is_weekend : ℚ
  macros : MealMacros
  context : ContextFeatures
  activity : ActivityFeatures
  minutes_since_prev_meal : F
  targets : Targets
  egv_points_in_window : ℕ
deriving DecidableEq

/-- The meals frame sorted by `eaten_at` (`meals.sort_values("eaten_at")`;
order among equal anchors is observable only for duplicate times). -/
def sortMeals (meals : List Meal) : List Meal :=
  List.insertionSort (fun a b => a.eaten_at ≤ b.eaten_at) meals

/-- The egv frame sorted by `measured_at`. -/
def sortEGV (egv : List EGV) : List EGV :=
  List.insertionSort (fun a b => a.measured_at ≤ b.measured_at) egv

/-- The body of the per-meal loop of `build_meal_dataset`: slice the
glucose series to `[-pre_context_minutes, post_minutes]` around the anchor,
compute time features, pass through macros, context, activity, the
minutes-since-previous-meal value (`prev` is the anchor of the preceding
meal in sorted order, `none` for the first meal), targets, and the
diagnostic point count. -/
def buildRow (cfg : MealWindowConfig) (egvS : List EGV) (workouts : List Workout)
    (exercise_sets : List ExerciseSet) (prev : Option ℚ) (m : Meal) : Row :=
  let win := (egvS.map (fun r => (r.measured_at - m.eaten_at, r.glucose_mgdl))).filter
    (fun p => decide (-(cfg.pre_context_minutes : ℚ) ≤ p.1 ∧ p.1 ≤ (cfg.post_minutes : ℚ)))
  let minutes_rel : List F := win.map (fun p => some p.1)
  let glucose : List F := win.map (fun p => p.2)
  let tf := compute_time_features m.eaten_at
  let msp : F :=
    match prev with
    | none => none
    | some t => some (m.eaten_at - t)
  ⟨m.meal_event_id, m.eaten_at, tf.1, tf.2.1, tf.2.2, m.macros,
   compute_glucose_context_features minutes_rel glucose cfg,
   compute_activity_features m.eaten_at workouts exercise_sets cfg,
   msp,
   compute_targets minutes_rel glucose cfg,
   win.length⟩

/-- The per-meal loop of `build_meal_dataset`, threading the previous
meal's anchor through the sorted meal list. -/
def buildRows (cfg : MealWindowConfig) (egvS : List EGV) (workouts : List Workout)
    (exercise_sets : List ExerciseSet) : Option ℚ → List Meal → List Row
  | _, [] => []
  | prev, m :: rest =>
      buildRow cfg egvS workouts exercise_sets prev m ::
        buildRows cfg egvS workouts exercise_sets (some m.eaten_at) rest

/-- Source `dataset.py`, `build_meal_dataset`: an empty cohort yields the
empty (column-less) frame; otherwise the glucose series is sorted once, the
meals are processed in ascending `eaten_at` order and one row is emitted
per meal.  Total by construction. -/
def build_meal_dataset (meals : List Meal) (egv : List EGV) (workouts : List Workout)
    (exercise_sets : List ExerciseSet) (cfg : MealWindowConfig) : List Row :=
  if meals.isEmpty then []
  else buildRows cfg (sortEGV egv) workouts exercise_sets none (sortMeals meals)

/-- An item is kept by the `compute_meal_macros` loop exactly when both its
grams and serving grams coalesce to strictly positive values. -/
def itemKept (it : MealItem) : Bool :=
  decide (0 < it.grams.getD 0 ∧ 0 < it.serving_grams.getD 0)

lemma itemStep_of_not_kept (acc : MealMacros) (it : MealItem) (h : itemKept it = false) :
    itemStep acc it = acc := by
  unfold itemKept at h
  rw [decide_eq_false_iff_not] at h
  push_neg at h
  unfold itemStep
  by_cases hg : it.grams.getD 0 ≤ 0
  · rw [if_pos (Or.inl hg)]
  · rw [if_pos (Or.inr (h (lt_of_not_le hg)))]

lemma foldl_itemStep_filter (items : List MealItem) :
    ∀ acc : MealMacros, (items.filter itemKept).foldl itemStep acc = items.foldl itemStep acc := by
  induction items with
  | nil => intro acc; rfl
  | cons i rest ih =>
      intro acc
      by_cases hk : itemKept i = true
      · rw [List.filter_cons_of_pos hk]
        simp only [List.foldl_cons]
        exact ih (itemStep acc i)
      · have hk2 : itemKept i = false := by
          revert hk
          cases itemKept i <;> simp
        rw [List.filter_cons_of_neg (by simp [hk2])]
        simp only [List.foldl_cons]
        rw [itemStep_of_not_kept acc i hk2]
        exact ih acc

lemma foldl_itemStep_none_kept (items : List MealItem)
    (h : ∀ it ∈ items, itemKept it = false) :
    ∀ acc : MealMacros, items.foldl itemStep acc = acc := by
  induction items with
  | nil => intro acc; rfl
  | cons i rest ih =>
      intro acc
      simp only [List.foldl_cons]
      rw [itemStep_of_not_kept acc i (h i (by simp))]
      exact ih (fun it hit => h it (by simp [hit])) acc

/-- C10: `compute_meal_macros` skips every item whose grams or serving
grams is missing, zero, or negative before dividing: the totals only
depend on the items where both coalesced values are strictly positive, a
list of items that are all skipped (in particular the empty list)
produces the all-zero totals, and every item that reaches the division has
a strictly positive `serving_grams` denominator.  The function is total
and always returns all six totals (it is a Lean function into
`MealMacros`). -/
theorem compute_meal_macros_skips_nonpositive (items : List MealItem) :
    compute_meal_macros items = compute_meal_macros (items.filter itemKept)
    ∧ compute_meal_macros (items.filter (fun it => !itemKept it)) = zeroMacros
    ∧ (items.filter itemKept).all (fun it => decide (0 < it.serving_grams.getD 0)) = true := by
  refine ⟨?_, ?_, ?_⟩
  · unfold compute_meal_macros
    exact (foldl_itemStep_filter items zeroMacros).symm
  · unfold compute_meal_macros
    apply foldl_itemStep_none_kept
    intro it hit
    have := List.of_mem_filter hit
    revert this
    cases itemKept it <;> simp
  · rw [List.all_eq_true]
    intro it hit
    have hk := List.of_mem_filter hit
    unfold itemKept at hk
    rw [decide_eq_true_eq] at hk
    rw [decide_eq_true_eq]
    exact hk.2

/-- C9: an empty meal cohort yields the empty (column-less) dataset, for
every glucose, workout and exercise-set input, and no exception is raised
(`build_meal_dataset` is a total Lean function). -/
theorem build_meal_dataset_empty_cohort (egv : List EGV) (workouts : List Workout)
    (exercise_sets : List ExerciseSet) (cfg : MealWindowConfig) :
    build_meal_dataset [] egv workouts exercise_sets cfg = [] := rfl

/-- C6: the Activity Aggregator's pre-window is
`[anchor - activity_pre_minutes, anchor)` and its post-window is
`[anchor, anchor + activity_post_minutes)`, both half-open: the emitted
counts count exactly the records whose (start/performed) time satisfies
those inequalities, no record satisfies both window predicates, and a
record timed exactly at the anchor satisfies the post-window predicate and
not the pre-window predicate. -/
theorem compute_activity_features_half_open (meal_time : ℚ) (workouts : List Workout)
    (exercise_sets : List ExerciseSet) (cfg : MealWindowConfig)
    (hpost : 0 < cfg.activity_post_minutes) :
    (compute_activity_features meal_time workouts exercise_sets cfg).workout_count_pre6h
      = (workouts.filter (fun w =>
          decide (meal_time - (cfg.activity_pre_minutes : ℚ) ≤ w.start_at ∧ w.start_at < meal_time))).length
    ∧ (compute_activity_features meal_time workouts exercise_sets cfg).workout_count_post3h
      = (workouts.filter (fun w =>
          decide (meal_time ≤ w.start_at ∧ w.start_at < meal_time + (cfg.activity_post_minutes : ℚ)))).length
    ∧ workouts.filter (fun w =>
        decide (meal_time - (cfg.activity_pre_minutes : ℚ) ≤ w.start_at ∧ w.start_at < meal_time)
          && decide (meal_time ≤ w.start_at ∧ w.start_at < meal_time + (cfg.activity_post_minutes : ℚ))) = []
    ∧ (compute_activity_features meal_time workouts exercise_sets cfg).exercise_set_count_pre6h
      = (exercise_sets.filter (fun e =>
          decide (meal_time - (cfg.activity_pre_minutes : ℚ) ≤ e.performed_at ∧ e.performed_at < meal_time))).length
    ∧ (compute_activity_features meal_time workouts exercise_sets cfg).exercise_set_count_post3h
      = (exercise_sets.filter (fun e =>
          decide (meal_time ≤ e.performed_at ∧ e.performed_at < meal_time + (cfg.activity_post_minutes : ℚ)))).length
    ∧ exercise_sets.filter (fun e =>
        decide (meal_time - (cfg.activity_pre_minutes : ℚ) ≤ e.performed_at ∧ e.performed_at < meal_time)
          && decide (meal_time ≤ e.performed_at ∧ e.performed_at < meal_time + (cfg.activity_post_minutes : ℚ))) = []
    ∧ mask_between meal_time (meal_time - (cfg.activity_pre_minutes : ℚ)) meal_time = false
    ∧ mask_between meal_time meal_time (meal_time + (cfg.activity_post_minutes : ℚ)) = true := by
  have hpostq : (0 : ℚ) < (cfg.activity_post_minutes : ℚ) := by exact_mod_cast hpost
  refine ⟨rfl, rfl, ?_, rfl, rfl, ?_, ?_, ?_⟩
  · rw [List.filter_eq_nil_iff]
    intro w _
    simp only [Bool.and_eq_true, decide_eq_true_eq]
    rintro ⟨⟨_, h1⟩, h2, _⟩
    linarith
  · rw [List.filter_eq_nil_iff]
    intro e _
    simp only [Bool.and_eq_true, decide_eq_true_eq]
    rintro ⟨⟨_, h1⟩, h2, _⟩
    linarith
  · unfold mask_between
    simp
  · unfold mask_between
    rw [decide_eq_true_eq]
    exact ⟨le_refl _, by linarith⟩

/-- Witness for C6 at the anchor 0, empty record lists and the default
configuration. -/
theorem compute_activity_features_half_open_witness :
    (0 : ℤ) < defaultConfig.activity_post_minutes
    ∧ ((compute_activity_features 0 [] [] defaultConfig).workout_count_pre6h
      = (([] : List Workout).filter (fun w =>
          decide ((0 : ℚ) - (defaultConfig.activity_pre_minutes : ℚ) ≤ w.start_at ∧ w.start_at < (0 : ℚ)))).length
    ∧ (compute_activity_features 0 [] [] defaultConfig).workout_count_post3h
      = (([] : List Workout).filter (fun w =>
          decide ((0 : ℚ) ≤ w.start_at ∧ w.start_at < (0 : ℚ) + (defaultConfig.activity_post_minutes : ℚ)))).length
    ∧ ([] : List Workout).filter (fun w =>
        decide ((0 : ℚ) - (defaultConfig.activity_pre_minutes : ℚ) ≤ w.start_at ∧ w.start_at < (0 : ℚ))
          && decide ((0 : ℚ) ≤ w.start_at ∧ w.start_at < (0 : ℚ) + (defaultConfig.activity_post_minutes : ℚ))) = []
    ∧ (compute_activity_features 0 [] [] defaultConfig).exercise_set_count_pre6h
      = (([] : List ExerciseSet).filter (fun e =>
          decide ((0 : ℚ) - (defaultConfig.activity_pre_minutes : ℚ) ≤ e.performed_at ∧ e.performed_at < (0 : ℚ)))).length
    ∧ (compute_activity_features 0 [] [] defaultConfig).exercise_set_count_post3h
      = (([] : List ExerciseSet).filter (fun e =>
          decide ((0 : ℚ) ≤ e.performed_at ∧ e.performed_at < (0 : ℚ) + (defaultConfig.activity_post_minutes : ℚ)))).length
    ∧ ([] : List ExerciseSet).filter (fun e =>
        decide ((0 : ℚ) - (defaultConfig.activity_pre_minutes : ℚ) ≤ e.performed_at ∧ e.performed_at < (0 : ℚ))
          && decide ((0 : ℚ) ≤ e.performed_at ∧ e.performed_at < (0 : ℚ) + (defaultConfig.activity_post_minutes : ℚ))) = []
    ∧ mask_between 0 ((0 : ℚ) - (defaultConfig.activity_pre_minutes : ℚ)) 0 = false
    ∧ mask_between 0 0 ((0 : ℚ) + (defaultConfig.activity_post_minutes : ℚ)) = true) :=
  ⟨by decide, compute_activity_features_half_open 0 [] [] defaultConfig (by decide)⟩

/-- The minutes-since-previous-meal column produced by the per-meal loop,
threading the previous anchor: `none` when there is no previous meal, else
the difference of consecutive anchors. -/
def mspFrom : Option ℚ → List ℚ → List F
  | _, [] => []
  | prev, t :: rest =>
      (match prev with
       | none => none
       | some p => some (t - p)) :: mspFrom (some t) rest

lemma buildRows_map_msp (cfg : MealWindowConfig) (egvS : List EGV) (workouts : List Workout)
    (exercise_sets : List ExerciseSet) :
    ∀ (ms : List Meal) (prev : Option ℚ),
      (buildRows cfg egvS workouts exercise_sets prev ms).map Row.minutes_since_prev_meal
        = mspFrom prev (ms.map Meal.eaten_at) := by
  intro ms
  induction ms with
  | nil => intro prev; rfl
  | cons m rest ih =>
      intro prev
      simp only [buildRows, List.map_cons, mspFrom]
      exact congrArg₂ List.cons rfl (ih (some m.eaten_at))

lemma mspFrom_some (ts : List ℚ) :
    ∀ p : ℚ, mspFrom (some p) ts = List.zipWith (fun a b => (some (a - b) : F)) ts (p :: ts) := by
  induction ts with
  | nil => intro p; rfl
  | cons t rest ih =>
      intro p
      simp only [mspFrom, List.zipWith]
      exact congrArg₂ List.cons rfl (ih t)

lemma sortMeals_ne_nil (meals : List Meal) (h : meals ≠ []) : sortMeals meals ≠ [] := by
  intro hs
  apply h
  have hp := List.perm_insertionSort (fun a b : Meal => a.eaten_at ≤ b.eaten_at) meals
  unfold sortMeals at hs
  rw [hs] at hp
  exact (List.Perm.nil_eq hp).symm

/-- C8: for a non-empty cohort, `build_meal_dataset` (which processes the
meals in ascending `eaten_at` order) emits `minutes_since_prev_meal` as
unknown for the first meal and, for each later meal, as the difference
between its anchor and the immediately preceding anchor in sorted order. -/
theorem build_meal_dataset_minutes_since_prev (meals : List Meal) (egv : List EGV)
    (workouts : List Workout) (exercise_sets : List ExerciseSet) (cfg : MealWindowConfig)
    (hne : meals ≠ []) :
    (build_meal_dataset meals egv workouts exercise_sets cfg).map Row.minutes_since_prev_meal
      = none :: List.zipWith (fun a b => (some (a - b) : F))
          (((sortMeals meals).map Meal.eaten_at).drop 1)
          ((sortMeals meals).map Meal.eaten_at) := by
  have hempty : meals.isEmpty = false := by
    cases meals with
    | nil => exact absurd rfl hne
    | cons a l => rfl
  unfold build_meal_dataset
  rw [if_neg (by simp [hempty])]
  rw [buildRows_map_msp]
  cases hs : sortMeals meals with
  | nil => exact absurd hs (sortMeals_ne_nil meals hne)
  | cons t rest =>
      simp only [List.map_cons, mspFrom, List.drop_succ_cons, List.drop_zero]
      exact congrArg₂ List.cons rfl (mspFrom_some (rest.map Meal.eaten_at) t.eaten_at)

/-- Witness for C8: a cohort of two meals eaten 90 minutes apart. -/
theorem build_meal_dataset_minutes_since_prev_witness :
    ([⟨1, 0, zeroMacros⟩, ⟨2, 90, zeroMacros⟩] : List Meal) ≠ []
    ∧ (build_meal_dataset [⟨1, 0, zeroMacros⟩, ⟨2, 90, zeroMacros⟩] [] [] [] defaultConfig).map
          Row.minutes_since_prev_meal
      = none :: List.zipWith (fun a b => (some (a - b) : F))
          (((sortMeals [⟨1, 0, zeroMacros⟩, ⟨2, 90, zeroMacros⟩]).map Meal.eaten_at).drop 1)
          ((sortMeals [⟨1, 0, zeroMacros⟩, ⟨2, 90, zeroMacros⟩]).map Meal.eaten_at) :=
  ⟨by simp, build_meal_dataset_minutes_since_prev [⟨1, 0, zeroMacros⟩, ⟨2, 90, zeroMacros⟩]
    [] [] [] defaultConfig (by simp)⟩

lemma countFinite_map_none (l : List ℚ) : countFinite (l.map (fun _ => (none : F))) = 0 := by
  simp [countFinite, List.filterMap_cons]

lemma resample_no_pairs (minutes values : List F) (gm a b : ℤ)
    (h : (finitePairs minutes values).length < 2) :
    (resample_to_grid minutes values gm a b).2
      = (resample_to_grid minutes values gm a b).1.map (fun _ => none) := by
  simp only [resample_to_grid]
  rw [if_pos h]

lemma compute_targets_gate_eq (minutes_rel glucose_mgdl : List F) (cfg : MealWindowConfig)
    (h : countFinite (resample_to_grid minutes_rel glucose_mgdl cfg.grid_minutes 0 cfg.post_minutes).2
          < cfg.min_points_post) :
    compute_targets minutes_rel glucose_mgdl cfg
      = ⟨targetsBaseline minutes_rel glucose_mgdl cfg, none, none, none, none⟩ := by
  simp only [compute_targets]
  rw [if_pos h]
  rfl

/-- C1: whenever fewer than `min_points_post` of the resampled post-meal
grid values are finite, `compute_targets` returns unknown (NaN) for peak,
incremental peak, incremental AUC and the post-meal slope, while the
baseline is still the one computed from the pre-meal window (possibly
itself NaN); being a total Lean function, no exception is raised. -/
theorem compute_targets_low_data_gate (minutes_rel glucose_mgdl : List F)
    (cfg : MealWindowConfig)
    (h : countFinite (resample_to_grid minutes_rel glucose_mgdl cfg.grid_minutes 0 cfg.post_minutes).2
          < cfg.min_points_post) :
    compute_targets minutes_rel glucose_mgdl cfg
      = ⟨targetsBaseline minutes_rel glucose_mgdl cfg, none, none, none, none⟩ :=
  compute_targets_gate_eq minutes_rel glucose_mgdl cfg h

/-- Witness for C1 at the empty series and the default configuration. -/
theorem compute_targets_low_data_gate_witness :
    countFinite (resample_to_grid [] [] defaultConfig.grid_minutes 0 defaultConfig.post_minutes).2
        < defaultConfig.min_points_post
    ∧ compute_targets [] [] defaultConfig
      = ⟨targetsBaseline [] [] defaultConfig, none, none, none, none⟩ := by
  have h : countFinite (resample_to_grid [] [] defaultConfig.grid_minutes 0 defaultConfig.post_minutes).2
      < defaultConfig.min_points_post := by
    rw [resample_no_pairs [] [] defaultConfig.grid_minutes 0 defaultConfig.post_minutes (by decide)]
    rw [countFinite_map_none]
    decide
  exact ⟨h, compute_targets_low_data_gate [] [] defaultConfig h⟩

lemma compute_targets_baseline_eq (minutes_rel glucose_mgdl : List F) (cfg : MealWindowConfig) :
    (compute_targets minutes_rel glucose_mgdl cfg).baseline_mgdl
      = targetsBaseline minutes_rel glucose_mgdl cfg := by
  simp only [compute_targets]
  split <;> rfl

lemma m0_map_snd (minutes_rel glucose_mgdl : List F) (cfg : MealWindowConfig) :
    (((minutes_rel.zip glucose_mgdl).filterMap (fun p =>
        match p.1 with
        | some t => if -(cfg.pre_baseline_minutes : ℚ) ≤ t ∧ t < 0 then some (t, p.2) else none
        | none => none)).map Prod.snd)
      = preWindowVals minutes_rel glucose_mgdl cfg := by
  unfold preWindowVals
  rw [List.map_filterMap]
  apply List.filterMap_congr
  intro p _
  cases hp : p.1 with
  | none => rfl
  | some t =>
      by_cases hc : -(cfg.pre_baseline_minutes : ℚ) ≤ t ∧ t < 0
      · simp [hc]
      · simp [hc]

lemma ctx_baseline_eq (minutes_rel glucose_mgdl : List F) (cfg : MealWindowConfig) :
    (compute_glucose_context_features minutes_rel glucose_mgdl cfg).baseline_mgdl
      = targetsBaseline minutes_rel glucose_mgdl cfg := by
  simp only [compute_glucose_context_features, targetsBaseline]
  rw [m0_map_snd]

lemma nanmedian_ne_none (xs : List F) (h : 0 < countFinite xs) : nanmedian xs ≠ none := by
  unfold nanmedian medianSorted
  have hlen : (List.insertionSort (· ≤ ·) (xs.filterMap id)).length = countFinite xs := by
    unfold countFinite
    exact List.length_insertionSort _ _
  rw [hlen]
  rw [if_neg (by omega)]
  split <;> simp

/-- C4 (amended): on every input the Target Extractor and the Context
Feature Extractor return the same baseline; whenever at least
`min_points_pre_baseline` of the values in `[-pre_baseline_minutes, 0)` are
finite, that baseline is the `nanmedian` of those windowed values; and
provided `min_points_pre_baseline >= 1` (as in every shipped
configuration), the baseline is unknown (NaN) exactly when fewer than
`min_points_pre_baseline` finite points lie in that sub-window.  (For
`min_points_pre_baseline = 0` the claimed equivalence fails, see the
counterexample: an empty window passes the gate yet the median of nothing
is still NaN.) -/
theorem baseline_extractors_agree (minutes_rel glucose_mgdl : List F) (cfg : MealWindowConfig) :
    (compute_targets minutes_rel glucose_mgdl cfg).baseline_mgdl
      = (compute_glucose_context_features minutes_rel glucose_mgdl cfg).baseline_mgdl
    ∧ (cfg.min_points_pre_baseline ≤ countFinite (preWindowVals minutes_rel glucose_mgdl cfg) →
        (compute_targets minutes_rel glucose_mgdl cfg).baseline_mgdl
          = nanmedian (preWindowVals minutes_rel glucose_mgdl cfg))
    ∧ (1 ≤ cfg.min_points_pre_baseline →
        ((compute_targets minutes_rel glucose_mgdl cfg).baseline_mgdl = none ↔
          countFinite (preWindowVals minutes_rel glucose_mgdl cfg) < cfg.min_points_pre_baseline)) := by
  rw [compute_targets_baseline_eq, ctx_baseline_eq]
  refine ⟨rfl, ?_, ?_⟩
  · intro h
    unfold targetsBaseline
    rw [if_pos h]
  · intro h1
    constructor
    · intro hnone
      by_contra hge
      push_neg at hge
      unfold targetsBaseline at hnone
      rw [if_pos hge] at hnone
      exact nanmedian_ne_none _ (by omega) hnone
    · intro hlt
      unfold targetsBaseline
      rw [if_neg (by omega)]

/-- Counterexample for C4 as stated: with `min_points_pre_baseline = 0` and
an empty series, the baseline is unknown although the window does not have
fewer finite points than the threshold. -/
theorem baseline_unknown_iff_cex :
    (compute_targets [] [] ⟨30, 120, 180, 60, 5, 360, 180, 0, 10⟩).baseline_mgdl = none
    ∧ ¬(countFinite (preWindowVals [] [] ⟨30, 120, 180, 60, 5, 360, 180, 0, 10⟩)
        < (⟨30, 120, 180, 60, 5, 360, 180, 0, 10⟩ : MealWindowConfig).min_points_pre_baseline) := by
  constructor
  · rw [compute_targets_baseline_eq]
    rfl
  · decide

/-- Witness for C4 (amended) at the empty series and the default
configuration. -/
theorem baseline_extractors_agree_witness :
    (compute_targets [] [] defaultConfig).baseline_mgdl
      = (compute_glucose_context_features [] [] defaultConfig).baseline_mgdl
    ∧ (defaultConfig.min_points_pre_baseline ≤ countFinite (preWindowVals [] [] defaultConfig) →
        (compute_targets [] [] defaultConfig).baseline_mgdl
          = nanmedian (preWindowVals [] [] defaultConfig))
    ∧ (1 ≤ defaultConfig.min_points_pre_baseline →
        ((compute_targets [] [] defaultConfig).baseline_mgdl = none ↔
          countFinite (preWindowVals [] [] defaultConfig) < defaultConfig.min_points_pre_baseline)) :=
  baseline_extractors_agree [] [] defaultConfig

lemma resample_fst (minutes values : List F) (gm a b : ℤ) :
    (resample_to_grid minutes values gm a b).1
      = np_arange (a : ℚ) ((b : ℚ) + 1 / 10000) (gm : ℚ) := by
  simp only [resample_to_grid]
  split <;> rfl

/-- Case analysis of the value column of `resample_to_grid` (the proof
body of the C3 theorem below, kept separate so other lemmas may reuse
it). -/
lemma resample_snd_cases (minutes values : List F) (gm a b : ℤ) :
    (resample_to_grid minutes values gm a b).2
      = if (finitePairs minutes values).length < 2 then
          List.replicate (resample_to_grid minutes values gm a b).1.length none
        else
          (resample_to_grid minutes values gm a b).1.map (fun g =>
            if g < ((sortPairs (finitePairs minutes values)).headD (0, 0)).1
               ∨ ((sortPairs (finitePairs minutes values)).getLastD (0, 0)).1 < g
            then none
            else some (interpQ (sortPairs (finitePairs minutes values)) g)) := by
  by_cases h : (finitePairs minutes values).length < 2
  · rw [if_pos h, resample_fst]
    simp only [resample_to_grid]
    rw [if_pos h]
    exact List.map_const' _ _
  · rw [if_neg h, resample_fst]
    simp only [resample_to_grid]
    rw [if_neg h]

lemma np_arange_length (start stop step : ℚ) :
    (np_arange start stop step).length = arangeLen start stop step := by
  unfold np_arange
  rw [List.length_map, List.length_range]

lemma mem_np_arange (start stop step : ℚ) {t : ℚ} (h : t ∈ np_arange start stop step) :
    ∃ i : ℕ, i < arangeLen start stop step ∧ t = start + (i : ℚ) * step := by
  unfold np_arange at h
  rw [List.mem_map] at h
  obtain ⟨i, hi, rfl⟩ := h
  exact ⟨i, List.mem_range.mp hi, rfl⟩

lemma np_arange_getLast (start stop step : ℚ) (n : ℕ)
    (h : arangeLen start stop step = n + 1) :
    (np_arange start stop step).getLast? = some (start + (n : ℚ) * step) := by
  unfold np_arange
  rw [h, List.range_succ, List.map_append]
  exact List.getLast?_concat _

lemma arangeLen_int (a b s : ℤ) (hstep : 0 < s) (hle : a ≤ b) :
    arangeLen (a : ℚ) ((b : ℚ) + 1 / 10000) (s : ℚ) = ((b - a) / s).toNat + 1 := by
  have hqr : s * ((b - a) / s) + (b - a) % s = b - a := Int.ediv_add_emod (b - a) s
  have hr0 : 0 ≤ (b - a) % s := Int.emod_nonneg (b - a) (by omega)
  have hrs : (b - a) % s < s := Int.emod_lt_of_pos (b - a) hstep
  have hq0 : 0 ≤ (b - a) / s := Int.ediv_nonneg (by omega) (le_of_lt hstep)
  have hsq : (0 : ℚ) < (s : ℚ) := by exact_mod_cast hstep
  have hab : (a : ℚ) ≤ (b : ℚ) := by exact_mod_cast hle
  unfold arangeLen
  rw [if_pos ⟨hsq, by linarith⟩]
  have hmulcomm : ((b - a) / s) * s = s * ((b - a) / s) := mul_comm _ _
  have hlo : s * ((b - a) / s) ≤ b - a := by linarith
  have hhi : b - a ≤ s * ((b - a) / s) + s - 1 := by linarith
  have hloq : (s : ℚ) * (((b - a) / s : ℤ) : ℚ) ≤ (b : ℚ) - (a : ℚ) := by
    exact_mod_cast hlo
  have hhiq : (b : ℚ) - (a : ℚ) ≤ (s : ℚ) * (((b - a) / s : ℤ) : ℚ) + (s : ℚ) - 1 := by
    exact_mod_cast hhi
  have hceil : ⌈((b : ℚ) + 1 / 10000 - (a : ℚ)) / (s : ℚ)⌉ = (b - a) / s + 1 := by
    rw [Int.ceil_eq_iff]
    constructor
    · push_cast
      rw [lt_div_iff₀ hsq]
      nlinarith
    · rw [div_le_iff₀ hsq]
      push_cast
      nlinarith
  rw [hceil]
  omega

/-- C2 (amended): for every positive step and window with
`start_minute <= end_minute`, the grid returned by `resample_to_grid` has
length `floor((end - start) / step) + 1`, every grid time lies in
`[start, end]`, and whenever the step divides `end - start` (as in every
shipped configuration, where the 5-minute step divides the 180-minute post
window) the final grid point is exactly `end_minute`.  (Without the
divisibility condition the final point falls short of `end_minute`; see
the counterexample.) -/
theorem resample_grid_shape (start_minute end_minute step : ℤ) (minutes values : List F)
    (hstep : 0 < step) (hle : start_minute ≤ end_minute) :
    (resample_to_grid minutes values step start_minute end_minute).1.length
        = ((end_minute - start_minute) / step).toNat + 1
    ∧ (resample_to_grid minutes values step start_minute end_minute).1.all
        (fun t => decide ((start_minute : ℚ) ≤ t ∧ t ≤ (end_minute : ℚ))) = true
    ∧ (step ∣ end_minute - start_minute →
        (resample_to_grid minutes values step start_minute end_minute).1.getLast?
          = some ((end_minute : ℚ))) := by
  have hqr : step * ((end_minute - start_minute) / step) + (end_minute - start_minute) % step
      = end_minute - start_minute := Int.ediv_add_emod _ _
  have hr0 : 0 ≤ (end_minute - start_minute) % step := Int.emod_nonneg _ (by omega)
  have hq0 : 0 ≤ (end_minute - start_minute) / step := Int.ediv_nonneg (by omega) (le_of_lt hstep)
  have hsq : (0 : ℚ) < (step : ℚ) := by exact_mod_cast hstep
  refine ⟨?_, ?_, ?_⟩
  · rw [resample_fst, np_arange_length, arangeLen_int _ _ _ hstep hle]
  · rw [resample_fst, List.all_eq_true]
    intro t ht
    obtain ⟨i, hi, rfl⟩ := mem_np_arange _ _ _ ht
    rw [arangeLen_int _ _ _ hstep hle] at hi
    rw [decide_eq_true_eq]
    have hi2 : (i : ℤ) ≤ (end_minute - start_minute) / step := by omega
    have hmul : (i : ℤ) * step ≤ ((end_minute - start_minute) / step) * step :=
      mul_le_mul_of_nonneg_right hi2 (by omega)
    have hcomm : ((end_minute - start_minute) / step) * step
        = step * ((end_minute - start_minute) / step) := mul_comm _ _
    have hub : (i : ℤ) * step ≤ end_minute - start_minute := by linarith
    have hubq : ((i : ℕ) : ℚ) * (step : ℚ) ≤ (end_minute : ℚ) - (start_minute : ℚ) := by
      exact_mod_cast hub
    have hnn : (0 : ℚ) ≤ ((i : ℕ) : ℚ) * (step : ℚ) := by positivity
    constructor
    · linarith
    · linarith
  · intro hdvd
    have hr : (end_minute - start_minute) % step = 0 := Int.emod_eq_zero_of_dvd hdvd
    rw [resample_fst,
      np_arange_getLast _ _ _ _ (arangeLen_int _ _ _ hstep hle)]
    have hqs : ((end_minute - start_minute) / step) * step = end_minute - start_minute := by
      have hcomm : ((end_minute - start_minute) / step) * step
          = step * ((end_minute - start_minute) / step) := mul_comm _ _
      linarith
    have hcast : ((((end_minute - start_minute) / step).toNat : ℕ) : ℚ)
        = (((end_minute - start_minute) / step : ℤ) : ℚ) := by
      exact_mod_cast congrArg (fun z : ℤ => (z : ℚ)) (Int.toNat_of_nonneg hq0)
    rw [hcast]
    have hq : (((end_minute - start_minute) / step : ℤ) : ℚ) * (step : ℚ)
        = (end_minute : ℚ) - (start_minute : ℚ) := by
      exact_mod_cast hqs
    exact congrArg some (by linarith)

/-- Counterexample for C2 as stated: with step 2 on the window `[0, 1]` the
final grid point of `resample_to_grid` is 0, not the end minute 1 (the
final grid point equals `end_minute` only when the step divides the window
length). -/
theorem resample_grid_end_cex :
    (resample_to_grid [] [] 2 0 1).1.getLast? = some ((0 : ℚ))
    ∧ ((0 : ℚ) ≠ ((1 : ℤ) : ℚ)) := by
  constructor
  · rw [resample_fst]
    have h : arangeLen ((0 : ℤ) : ℚ) (((1 : ℤ) : ℚ) + 1 / 10000) ((2 : ℤ) : ℚ) = 0 + 1 := by
      rw [arangeLen_int 0 1 2 (by decide) (by decide)]
      decide
    rw [np_arange_getLast _ _ _ 0 h]
    norm_num
  · norm_num

/-- Witness for C2 (amended) at step 5 on the window `[0, 10]`. -/
theorem resample_grid_shape_witness :
    (0 : ℤ) < 5 ∧ (0 : ℤ) ≤ 10
    ∧ ((resample_to_grid [] [] 5 0 10).1.length = (((10 : ℤ) - 0) / 5).toNat + 1
      ∧ (resample_to_grid [] [] 5 0 10).1.all
          (fun t => decide (((0 : ℤ) : ℚ) ≤ t ∧ t ≤ ((10 : ℤ) : ℚ))) = true
      ∧ ((5 : ℤ) ∣ (10 : ℤ) - 0 →
          (resample_to_grid [] [] 5 0 10).1.getLast? = some (((10 : ℤ) : ℚ)))) :=
  ⟨by decide, by decide, resample_grid_shape 0 10 5 [] [] (by decide) (by decide)⟩

/-- The centered sum of squared x-deviations of a pair list (the
denominator of the ordinary least-squares slope; it is nonzero exactly
when the x-values are not all equal). -/
def sqDevSum (ps : List (ℚ × ℚ)) : ℚ :=
  (ps.map (fun p => (p.1 - (ps.map Prod.fst).sum / (ps.length : ℚ)) ^ 2)).sum

/-- The ordinary least-squares slope of y versus x in its textbook
mean-centered form, as the spec words it: the covariance sum over the
squared-deviation sum. -/
def olsSlope (ps : List (ℚ × ℚ)) : ℚ :=
  (ps.map (fun p => (p.1 - (ps.map Prod.fst).sum / (ps.length : ℚ))
      * (p.2 - (ps.map Prod.snd).sum / (ps.length : ℚ)))).sum / sqDevSum ps

lemma sum_centered (ps : List (ℚ × ℚ)) (c d : ℚ) :
    (ps.map (fun p => (p.1 - c) * (p.2 - d))).sum
      = (ps.map (fun p => p.1 * p.2)).sum - c * (ps.map Prod.snd).sum
        - d * (ps.map Prod.fst).sum + (ps.length : ℚ) * (c * d) := by
  induction ps with
  | nil => simp
  | cons p rest ih =>
      simp only [List.map_cons, List.sum_cons, List.length_cons]
      rw [ih]
      push_cast
      ring

lemma sum_centered_sq (ps : List (ℚ × ℚ)) (c : ℚ) :
    (ps.map (fun p => (p.1 - c) ^ 2)).sum
      = (ps.map (fun p => p.1 * p.1)).sum - 2 * c * (ps.map Prod.fst).sum
        + (ps.length : ℚ) * c ^ 2 := by
  induction ps with
  | nil => simp
  | cons p rest ih =>
      simp only [List.map_cons, List.sum_cons, List.length_cons]
      rw [ih]
      push_cast
      ring

lemma polyfitSlope_eq_ols (ps : List (ℚ × ℚ)) (hne : ps ≠ []) :
    polyfitSlope ps = olsSlope ps := by
  have hlen : (0 : ℚ) < (ps.length : ℚ) := by
    have h := List.length_pos.mpr hne
    exact_mod_cast h
  have hn : ((ps.length : ℚ)) ≠ 0 := ne_of_gt hlen
  unfold polyfitSlope olsSlope sqDevSum
  rw [sum_centered, sum_centered_sq]
  set n := ((ps.length : ℕ) : ℚ) with hnn
  set sx := (ps.map Prod.fst).sum with hsx
  set sy := (ps.map Prod.snd).sum with hsy
  set sxy := (ps.map (fun p => p.1 * p.2)).sum with hsxy
  set sxx := (ps.map (fun p => p.1 * p.1)).sum with hsxx
  have hA : sxy - sx / n * sy - sy / n * sx + n * (sx / n * (sy / n))
      = sxy - sx * sy / n := by
    field_simp
    ring
  have hB : sxx - 2 * (sx / n) * sx + n * (sx / n) ^ 2 = sxx - sx * sx / n := by
    field_simp
    ring
  rw [hA, hB]
  have h1 : n * sxy - sx * sy = n * (sxy - sx * sy / n) := by
    field_simp
    ring
  have h2 : n * sxx - sx * sx = n * (sxx - sx * sx / n) := by
    field_simp
    ring
  show (n * sxy - sx * sy) / (n * sxx - sx * sx)
      = (sxy - sx * sy / n) / (sxx - sx * sx / n)
  rw [h1, h2, mul_div_mul_left _ _ hn]

/-- C7: `linear_slope` returns unknown (NaN) whenever fewer than 3 index
pairs are finite in both arrays, and otherwise (for a well-posed fit,
i.e. x-values not all equal so the least-squares slope exists) returns the
ordinary least-squares slope of y versus x over the finite pairs. -/
theorem linear_slope_least_squares (x y : List F) :
    ((finitePairs x y).length < 3 → linear_slope x y = none)
    ∧ (3 ≤ (finitePairs x y).length → sqDevSum (finitePairs x y) ≠ 0 →
        linear_slope x y = some (olsSlope (finitePairs x y))) := by
  constructor
  · intro h
    unfold linear_slope
    rw [if_pos h]
  · intro h3 _
    unfold linear_slope
    rw [if_neg (by omega)]
    exact congrArg some (polyfitSlope_eq_ols _ (List.length_pos.mp (by omega)))

/-- Witness for C7 on the three finite pairs (0,0), (1,1), (2,2). -/
theorem linear_slope_least_squares_witness :
    3 ≤ (finitePairs [some 0, some 1, some 2] [some 0, some 1, some 2]).length
    ∧ sqDevSum (finitePairs [some 0, some 1, some 2] [some 0, some 1, some 2]) ≠ 0
    ∧ linear_slope [some 0, some 1, some 2] [some 0, some 1, some 2]
      = some (olsSlope (finitePairs [some 0, some 1, some 2] [some 0, some 1, some 2])) := by
  have hfp : finitePairs [some 0, some 1, some 2] [some 0, some 1, some 2]
      = [((0 : ℚ), (0 : ℚ)), (1, 1), (2, 2)] := rfl
  have hsq : sqDevSum (finitePairs [some 0, some 1, some 2] [some 0, some 1, some 2]) ≠ 0 := by
    rw [hfp]
    norm_num [sqDevSum]
  exact ⟨by decide, hsq,
    (linear_slope_least_squares [some 0, some 1, some 2] [some 0, some 1, some 2]).2
      (by decide) hsq⟩

lemma mem_preWindowVals (minutes_rel glucose_mgdl : List F) (cfg : MealWindowConfig)
    {v : F} (hv : v ∈ preWindowVals minutes_rel glucose_mgdl cfg) : v ∈ glucose_mgdl := by
  unfold preWindowVals at hv
  rw [List.mem_filterMap] at hv
  obtain ⟨p, hp, hfp⟩ := hv
  have hsnd := List.of_mem_zip hp
  cases hm : p.1 with
  | none => simp only [hm] at hfp; cases hfp
  | some t =>
      simp only [hm] at hfp
      by_cases hc : -(cfg.pre_baseline_minutes : ℚ) ≤ t ∧ t < 0
      · rw [if_pos hc] at hfp
        cases hfp
        exact hsnd.2
      · rw [if_neg hc] at hfp
        cases hfp

lemma getD_of_all_eq (w : List ℚ) (c : ℚ) (hall : ∀ x ∈ w, x = c)
    (i : ℕ) (hi : i < w.length) : w.getD i 0 = c := by
  rw [List.getD_eq_getElem w 0 hi]
  exact hall _ (List.getElem_mem hi)

lemma medianSorted_const (w : List ℚ) (c : ℚ) (hall : ∀ x ∈ w, x = c)
    (hpos : 0 < w.length) : medianSorted w = some c := by
  unfold medianSorted
  rw [if_neg (by omega)]
  by_cases hodd : w.length % 2 = 1
  · rw [if_pos hodd]
    rw [getD_of_all_eq w c hall _ (Nat.div_lt_self hpos (by omega))]
  · rw [if_neg hodd]
    rw [getD_of_all_eq w c hall _ (Nat.div_lt_self hpos (by omega)),
      getD_of_all_eq w c hall _ (by
        have := Nat.div_lt_self hpos (by omega : 1 < 2)
        omega)]
    norm_num

lemma nanmedian_const (xs : List F) (c : ℚ)
    (hall : ∀ v ∈ xs, v = none ∨ v = some c)
    (hpos : 0 < countFinite xs) : nanmedian xs = some c := by
  unfold nanmedian
  apply medianSorted_const
  · intro x hx
    have hx2 : x ∈ xs.filterMap id :=
      ((List.perm_insertionSort (· ≤ ·) (xs.filterMap id)).mem_iff).mp hx
    rw [List.mem_filterMap] at hx2
    obtain ⟨o, ho, hox⟩ := hx2
    rcases hall o ho with h | h
    · rw [h] at hox; cases hox
    · rw [h] at hox
      cases hox
      rfl
  · rw [List.length_insertionSort]
    exact hpos

lemma foldl_max_const (l : List ℚ) (c : ℚ) (hall : ∀ x ∈ l, x = c) :
    l.foldl max c = c := by
  induction l with
  | nil => rfl
  | cons a rest ih =>
      rw [List.foldl_cons, hall a (by simp), max_self]
      exact ih (fun x hx => hall x (by simp [hx]))

lemma nanmax_const (xs : List F) (c : ℚ)
    (hall : ∀ v ∈ xs, v = none ∨ v = some c)
    (hpos : 0 < countFinite xs) : nanmax xs = some c := by
  have hmem : ∀ x ∈ xs.filterMap id, x = c := by
    intro x hx
    rw [List.mem_filterMap] at hx
    obtain ⟨o, ho, hox⟩ := hx
    rcases hall o ho with h | h
    · rw [h] at hox; cases hox
    · rw [h] at hox; cases hox; rfl
  unfold nanmax
  unfold countFinite at hpos
  cases hfm : xs.filterMap id with
  | nil => rw [hfm] at hpos; simp at hpos
  | cons v vs =>
      have hv : v = c := hmem v (by rw [hfm]; simp)
      have hvs : ∀ x ∈ vs, x = c := fun x hx => hmem x (by rw [hfm]; simp [hx])
      subst hv
      show some (vs.foldl max v) = some v
      rw [foldl_max_const vs v hvs]

lemma interpQ_const (c : ℚ) : ∀ (ps : List (ℚ × ℚ)) (g : ℚ), ps ≠ [] →
    (∀ p ∈ ps, p.2 = c) → interpQ ps g = c := by
  intro ps
  induction ps with
  | nil => intro g h _; exact absurd rfl h
  | cons p rest ih =>
      intro g _ hall
      cases rest with
      | nil =>
          show p.2 = c
          exact hall p (by simp)
      | cons q rest2 =>
          rw [interpQ]
          have hp : p.2 = c := hall p (by simp)
          have hq : q.2 = c := hall q (by simp)
          by_cases h1 : g < p.1
          · rw [if_pos h1]; exact hp
          · rw [if_neg h1]
            by_cases h2 : g ≤ q.1
            · rw [if_pos h2, hp, hq]
              ring
            · rw [if_neg h2]
              exact ih g (by simp) (fun r hr => hall r (by simp [hr]))

lemma mem_finitePairs_snd (x y : List F) {p : ℚ × ℚ} (hp : p ∈ finitePairs x y) :
    some p.2 ∈ y := by
  unfold finitePairs at hp
  rw [List.mem_filterMap] at hp
  obtain ⟨q, hq, hfq⟩ := hp
  have hzip := List.of_mem_zip hq
  match q, hfq with
  | (some a, some b), hfq =>
      cases hfq
      exact hzip.2

lemma resample_const (minutes values : List F) (gm a b : ℤ) (c : ℚ)
    (hconst : ∀ v ∈ values, v = some c) :
    ∀ o ∈ (resample_to_grid minutes values gm a b).2, o = none ∨ o = some c := by
  intro o ho
  rw [resample_snd_cases] at ho
  by_cases h : (finitePairs minutes values).length < 2
  · rw [if_pos h] at ho
    exact Or.inl (List.eq_of_mem_replicate ho)
  · rw [if_neg h] at ho
    rw [List.mem_map] at ho
    obtain ⟨g, _, rfl⟩ := ho
    by_cases hout : g < ((sortPairs (finitePairs minutes values)).headD (0, 0)).1
        ∨ ((sortPairs (finitePairs minutes values)).getLastD (0, 0)).1 < g
    · rw [if_pos hout]
      exact Or.inl rfl
    · rw [if_neg hout]
      right
      have hne : sortPairs (finitePairs minutes values) ≠ [] := by
        intro hnil
        unfold sortPairs at hnil
        have hp := List.perm_insertionSort (fun a b : ℚ × ℚ => a.1 ≤ b.1) (finitePairs minutes values)
        rw [hnil] at hp
        have := hp.length_eq
        simp at this
        omega
      have hsnd : ∀ p ∈ sortPairs (finitePairs minutes values), p.2 = c := by
        intro p hps
        have hmem : p ∈ finitePairs minutes values := by
          unfold sortPairs at hps
          exact ((List.perm_insertionSort (fun a b : ℚ × ℚ => a.1 ≤ b.1)
            (finitePairs minutes values)).mem_iff).mp hps
        have := hconst _ (mem_finitePairs_snd minutes values hmem)
        injection this
      rw [interpQ_const c _ g hne hsnd]

lemma trapzSum_zero : ∀ l : List ℚ, (∀ x ∈ l, x = 0) → trapzSum l = 0 := by
  intro l
  induction l with
  | nil => intro _; rfl
  | cons a rest ih =>
      intro h
      cases rest with
      | nil => rfl
      | cons b rest2 =>
          rw [trapzSum, ih (fun x hx => h x (by simp [hx]))]
          rw [h a (by simp), h b (by simp)]
          norm_num

lemma trapz_auc_zero (y : List F) (dt : ℚ) (hall : ∀ o ∈ y, o = none ∨ o = some 0) :
    trapz_auc y dt = 0 := by
  unfold trapz_auc
  by_cases h2 : y.length < 2
  · rw [if_pos h2]
  · rw [if_neg h2]
    by_cases hn : y.all Option.isNone
    · rw [if_pos hn]
    · rw [if_neg hn]
      rw [trapzSum_zero]
      · ring
      · intro x hx
        rw [List.mem_map] at hx
        obtain ⟨o, ho, rfl⟩ := hx
        rcases hall o ho with h | h <;> rw [h] <;> rfl

lemma compute_targets_pass (minutes_rel glucose_mgdl : List F) (cfg : MealWindowConfig)
    (hgate : cfg.min_points_post
      ≤ countFinite (resample_to_grid minutes_rel glucose_mgdl cfg.grid_minutes 0 cfg.post_minutes).2) :
    (compute_targets minutes_rel glucose_mgdl cfg).baseline_mgdl
        = targetsBaseline minutes_rel glucose_mgdl cfg
    ∧ (compute_targets minutes_rel glucose_mgdl cfg).peak_mgdl
        = nanmax (resample_to_grid minutes_rel glucose_mgdl cfg.grid_minutes 0 cfg.post_minutes).2
    ∧ (compute_targets minutes_rel glucose_mgdl cfg).peak_inc_mgdl
        = (match targetsBaseline minutes_rel glucose_mgdl cfg with
           | none => none
           | some b =>
              match nanmax (resample_to_grid minutes_rel glucose_mgdl cfg.grid_minutes 0 cfg.post_minutes).2 with
              | none => none
              | some p => some (p - b))
    ∧ (compute_targets minutes_rel glucose_mgdl cfg).incremental_auc_mgdl_min
        = (match targetsBaseline minutes_rel glucose_mgdl cfg with
           | none => none
           | some b => some (trapz_auc
              ((resample_to_grid minutes_rel glucose_mgdl cfg.grid_minutes 0 cfg.post_minutes).2.map
                (fun g => g.map (fun v => max 0 (v - b)))) (cfg.grid_minutes : ℚ))) := by
  simp only [compute_targets]
  rw [if_neg (by omega)]
  exact ⟨rfl, rfl, rfl, rfl⟩

/-- C5: for a glucose series constantly equal to 100 mg/dL (with enough
finite points in the pre-meal window and on the post-meal grid to pass
both quality gates, the gates being non-trivial), `compute_targets`
returns baseline 100, incremental peak 0 and incremental AUC 0. -/
theorem compute_targets_flat_series (minutes_rel glucose_mgdl : List F)
    (cfg : MealWindowConfig)
    (hconst : ∀ v ∈ glucose_mgdl, v = some ((100 : ℚ)))
    (hpreC : cfg.min_points_pre_baseline
      ≤ countFinite (preWindowVals minutes_rel glucose_mgdl cfg))
    (hpre1 : 1 ≤ cfg.min_points_pre_baseline)
    (hpostC : cfg.min_points_post
      ≤ countFinite (resample_to_grid minutes_rel glucose_mgdl cfg.grid_minutes 0 cfg.post_minutes).2)
    (hpost1 : 1 ≤ cfg.min_points_post) :
    (compute_targets minutes_rel glucose_mgdl cfg).baseline_mgdl = some 100
    ∧ (compute_targets minutes_rel glucose_mgdl cfg).peak_inc_mgdl = some 0
    ∧ (compute_targets minutes_rel glucose_mgdl cfg).incremental_auc_mgdl_min = some 0 := by
  obtain ⟨hb, hp, hpi, hia⟩ := compute_targets_pass minutes_rel glucose_mgdl cfg hpostC
  have hbase : targetsBaseline minutes_rel glucose_mgdl cfg = some 100 := by
    unfold targetsBaseline
    rw [if_pos hpreC]
    apply nanmedian_const _ 100
    · intro v hv
      exact Or.inr (hconst v (mem_preWindowVals minutes_rel glucose_mgdl cfg hv))
    · omega
  have hgridconst := resample_const minutes_rel glucose_mgdl cfg.grid_minutes 0
    cfg.post_minutes 100 hconst
  have hpeak : nanmax (resample_to_grid minutes_rel glucose_mgdl cfg.grid_minutes 0
      cfg.post_minutes).2 = some 100 :=
    nanmax_const _ 100 hgridconst (by omega)
  refine ⟨by rw [hb, hbase], ?_, ?_⟩
  · rw [hpi, hbase, hpeak]
    show some ((100 : ℚ) - 100) = some 0
    norm_num
  · rw [hia, hbase]
    show some (trapz_auc
        ((resample_to_grid minutes_rel glucose_mgdl cfg.grid_minutes 0 cfg.post_minutes).2.map
          (fun g => g.map (fun v => max 0 (v - 100)))) (cfg.grid_minutes : ℚ)) = some 0
    refine congrArg some (trapz_auc_zero _ _ ?_)
    intro o ho
    rw [List.mem_map] at ho
    obtain ⟨g, hg, rfl⟩ := ho
    rcases hgridconst g hg with h | h
    · rw [h]
      exact Or.inl rfl
    · rw [h]
      right
      show some (max 0 ((100 : ℚ) - 100)) = some 0
      norm_num

/-- A small configuration for the flat-series witness: one-point gates and
a single-point post-meal grid. -/
def cfgFlat : MealWindowConfig := ⟨30, 120, 0, 60, 5, 360, 180, 1, 1⟩

/-- Witness for C5: two samples of a constant 100 mg/dL series, one in the
baseline window and one at the meal anchor, under `cfgFlat`. -/
theorem compute_targets_flat_series_witness :
    cfgFlat.min_points_pre_baseline
      ≤ countFinite (preWindowVals [some (-1), some 0] [some 100, some 100] cfgFlat)
    ∧ 1 ≤ cfgFlat.min_points_pre_baseline
    ∧ cfgFlat.min_points_post
      ≤ countFinite (resample_to_grid [some (-1), some 0] [some 100, some 100]
          cfgFlat.grid_minutes 0 cfgFlat.post_minutes).2
    ∧ 1 ≤ cfgFlat.min_points_post
    ∧ ((compute_targets [some (-1), some 0] [some 100, some 100] cfgFlat).baseline_mgdl = some 100
      ∧ (compute_targets [some (-1), some 0] [some 100, some 100] cfgFlat).peak_inc_mgdl = some 0
      ∧ (compute_targets [some (-1), some 0] [some 100, some 100] cfgFlat).incremental_auc_mgdl_min
          = some 0) := by
  have hconst : ∀ v ∈ [some ((100 : ℚ)), some 100], v = some ((100 : ℚ)) := by simp
  have hpreC : cfgFlat.min_points_pre_baseline
      ≤ countFinite (preWindowVals [some (-1), some 0] [some 100, some 100] cfgFlat) := by
    decide
  have h2 : (resample_to_grid [some (-1), some 0] [some 100, some 100]
      cfgFlat.grid_minutes 0 cfgFlat.post_minutes).2 = [some ((100 : ℚ))] := by
    show (resample_to_grid [some (-1), some 0] [some 100, some 100] 5 0 0).2 = [some 100]
    simp only [resample_to_grid]
    rw [if_neg (by decide)]
    have hlen : arangeLen ((0 : ℤ) : ℚ) (((0 : ℤ) : ℚ) + 1 / 10000) ((5 : ℤ) : ℚ) = 0 + 1 := by
      rw [arangeLen_int 0 0 5 (by decide) (by decide)]
      decide
    have hgrid : np_arange ((0 : ℤ) : ℚ) (((0 : ℤ) : ℚ) + 1 / 10000) ((5 : ℤ) : ℚ)
        = [((0 : ℤ) : ℚ) + ((0 : ℕ) : ℚ) * ((5 : ℤ) : ℚ)] := by
      unfold np_arange
      rw [hlen]
      rfl
    rw [hgrid]
    have hs : sortPairs (finitePairs [some (-1), some 0] [some 100, some 100])
        = [((-1 : ℚ), (100 : ℚ)), (0, 100)] := by decide
    rw [hs]
    norm_num [interpQ]
  have hpostC : cfgFlat.min_points_post
      ≤ countFinite (resample_to_grid [some (-1), some 0] [some 100, some 100]
          cfgFlat.grid_minutes 0 cfgFlat.post_minutes).2 := by
    rw [h2]
    decide
  exact ⟨hpreC, by decide, hpostC, by decide,
    compute_targets_flat_series [some (-1), some 0] [some 100, some 100] cfgFlat
      hconst hpreC (by decide) hpostC (by decide)⟩

/-- C3: the value column of `resample_to_grid` is all-missing when fewer
than 2 finite samples exist; otherwise each grid point strictly before the
first finite sample time or strictly after the last finite sample time is
missing (no extrapolation), and every other grid point carries the linear
interpolation of the time-sorted finite samples. -/
theorem resample_missing_policy (minutes values : List F) (gm a b : ℤ) :
    (resample_to_grid minutes values gm a b).2
      = if (finitePairs minutes values).length < 2 then
          List.replicate (resample_to_grid minutes values gm a b).1.length none
        else
          (resample_to_grid minutes values gm a b).1.map (fun g =>
            if g < ((sortPairs (finitePairs minutes values)).headD (0, 0)).1
               ∨ ((sortPairs (finitePairs minutes values)).getLastD (0, 0)).1 < g
            then none
            else some (interpQ (sortPairs (finitePairs minutes values)) g)) :=
  resample_snd_cases minutes values gm a b
